import Mathlib

/-!
Verification of the AI test-generation flow of this repository.

The development shallowly embeds the TypeScript agents under `lib/agents`
(pr-context.ts, test-gating.ts, test-proposals.ts, github.ts, flow-runner.ts)
as executable Lean definitions.  External effects (GitHub content fetches,
model calls, the jest run) are passed in as explicit inputs: a fetch function,
an `Except`-valued model result, or a stream of test-run results, so that the
pure control logic of the source is preserved exactly.
-/

/-- JS `String.prototype.endsWith`, modelled as list-suffix on characters. -/
def strEnds (s pat : String) : Bool := decide (pat.data <:+ s.data)

/-- JS `String.prototype.includes`, modelled as list-infix on characters. -/
def strHas (s sub : String) : Bool := decide (sub.data <:+: s.data)

/-- JS `s.replace(/X$/, new)` for a literal pattern X: when `s` ends with
`old` that suffix is replaced by `new`, otherwise `s` is returned unchanged. -/
def replaceSuffix (s old new : String) : String :=
  if old.data <:+ s.data then
    String.mk (s.data.take (s.data.length - old.data.length)) ++ new
  else s

theorem strEnds_append (a b : String) : strEnds (a ++ b) b = true := by
  unfold strEnds
  rw [String.data_append]
  exact decide_eq_true (List.suffix_append _ _)

theorem strEnds_prepend (a s pat : String) (h : strEnds s pat = true) :
    strEnds (a ++ s) pat = true := by
  unfold strEnds at h ⊢
  rw [String.data_append]
  exact decide_eq_true ((of_decide_eq_true h).trans (List.suffix_append a.data s.data))

theorem replaceSuffix_ends (s old new : String) (h : strEnds s old = true) :
    strEnds (replaceSuffix s old new) new = true := by
  unfold replaceSuffix
  rw [if_pos (of_decide_eq_true h)]
  exact strEnds_append _ _

theorem replaceSuffix_skip (s old new : String) (h : strEnds s old = false) :
    replaceSuffix s old new = s := by
  unfold replaceSuffix
  exact if_neg (of_decide_eq_false h)

theorem strHas_unit_prefixed (n : String) :
    strHas ("__tests__/unit/" ++ n) "__tests__/unit" = true := by
  unfold strHas
  rw [String.data_append]
  have h1 : "__tests__/unit".data <+: "__tests__/unit/".data := by decide
  exact decide_eq_true (h1.trans (List.prefix_append _ n.data)).isInfix

/-! ## Data model (pr-context.ts) -/

/-- One entry of `PullRequestContext.changedFiles` in pr-context.ts. -/
structure ChangedFile where
  filename : String
  patch : String
  status : String
  additions : Nat
  deletions : Nat
  content : Option String
  excluded : Bool
deriving DecidableEq, Repr

/-- One entry of `existingTestFiles` in pr-context.ts. -/
structure TestFileEntry where
  filename : String
  content : String
deriving DecidableEq, Repr

/-- `PullRequestContext` of pr-context.ts. -/
structure PullRequestContext where
  owner : String
  repo : String
  pullNumber : Nat
  headRef : String
  baseRef : String
  title : String
  changedFiles : List ChangedFile
  commitMessages : List String
deriving DecidableEq, Repr

/-- `PullRequestContextWithTests` of pr-context.ts. -/
structure PullRequestContextWithTests extends PullRequestContext where
  existingTestFiles : List TestFileEntry
deriving DecidableEq, Repr

/-! ## Context builder (pr-context.ts, buildPRContext) -/

/-- The raw file record coming from the GitHub listFiles call, before the
content fetch (filename, patch, status, additions, deletions). -/
structure RawChangedFile where
  filename : String
  patch : Option String
  status : String
  additions : Nat
  deletions : Nat
deriving DecidableEq, Repr

/-- `shouldExcludeFile` of pr-context.ts: lockfile denylist by suffix. -/
def shouldExcludeFile (filename : String) : Bool :=
  ["package-lock.json", "yarn.lock", "pnpm-lock.yaml"].any
    (fun pat => strEnds filename pat)

/-- The per-file body of the loop in `buildPRContext` (pr-context.ts lines
52-80).  `fetchContent` models `getFileContent` at the PR head ref: it returns
`Except.error` for a non-404 fetch failure (which aborts context building),
`Except.ok none` for an absent file (404 or non-file response), and
`Except.ok (some c)` for fetched text `c`.  The JS truthiness test
`if (content && content.length <= 32000)` is rendered with the explicit
empty-string case. -/
def buildChangedFile (fetchContent : String → Except String (Option String))
    (file : RawChangedFile) : Except String ChangedFile :=
  let base : ChangedFile :=
    { filename := file.filename
      patch := file.patch.getD ""
      status := file.status
      additions := file.additions
      deletions := file.deletions
      content := none
      excluded := false }
  if file.status != "removed" && !shouldExcludeFile file.filename then
    match fetchContent file.filename with
    | Except.error e => Except.error e
    | Except.ok (some c) =>
      if c != "" && decide (c.length ≤ 32000) then Except.ok { base with content := some c }
      else Except.ok { base with excluded := true }
    | Except.ok none => Except.ok { base with excluded := true }
  else Except.ok { base with excluded := true }

/-- The changed-files loop of `buildPRContext`: builds every entry in order,
propagating any fetch error (fail-fast). -/
def buildPRContextFiles (fetchContent : String → Except String (Option String)) :
    List RawChangedFile → Except String (List ChangedFile)
  | [] => Except.ok []
  | f :: fs =>
    match buildChangedFile fetchContent f with
    | Except.error e => Except.error e
    | Except.ok cf =>
      match buildPRContextFiles fetchContent fs with
      | Except.error e => Except.error e
      | Except.ok rest => Except.ok (cf :: rest)

/-! ## Test-context extension (pr-context.ts, getAllTestFiles) -/

/-- A directory tree as observed through successful `getContent` listing
calls: a file node carries the result of `getFileContent` for it (`none`
models an absent or non-decodable content), a directory node carries its
listing. -/
inductive FsEntry where
  | file (path : String) (content : Option String)
  | dir (path : String) (entries : List FsEntry)

/-- `getAllTestFiles` of pr-context.ts over the listing of one directory:
file items are fetched and pushed only when the content is truthy (present
and nonempty); directory items are recursed into, their results spliced in
place. -/
def getAllTestFiles : List FsEntry → List TestFileEntry
  | [] => []
  | FsEntry.file p c :: rest =>
    (match c with
     | some s => if s != "" then [{ filename := p, content := s }] else []
     | none => []) ++ getAllTestFiles rest
  | FsEntry.dir _ entries :: rest => getAllTestFiles entries ++ getAllTestFiles rest

/-! ## Gating step (test-gating.ts, gatingStepLogic) -/

/-- The object shape enforced by the zod `gatingSchema` (`decision` field). -/
structure GatingDecisionObj where
  shouldGenerateTests : Bool
  reasoning : String
  recommendation : String
deriving DecidableEq, Repr

/-- The value returned by `gatingStepLogic`. -/
structure GatingResult where
  shouldGenerate : Bool
  reason : String
  recommendation : String
deriving DecidableEq, Repr

/-- `gatingStepLogic` of test-gating.ts, with the `generateObject` call made
explicit: `Except.ok` is a schema-validated model response, `Except.error`
any thrown failure (network, parse, schema mismatch).  The try/catch of the
source maps the error case to the fail-closed default. -/
def gatingStepLogic (modelResult : Except String GatingDecisionObj) : GatingResult :=
  match modelResult with
  | Except.ok o =>
    { shouldGenerate := o.shouldGenerateTests
      reason := o.reasoning
      recommendation := o.recommendation }
  | Except.error _ =>
    { shouldGenerate := false, reason := "Gating error", recommendation := "" }

/-! ## Test proposals (test-proposals.ts) -/

/-- The `actions.action` tag of a test proposal. -/
inductive TPAction where
  | create
  | update
  | rename
deriving DecidableEq, Repr

/-- `TestProposal` of test-proposals.ts (JSON-schema variant: `oldFilename`
is a required string, possibly empty). -/
structure TestProposal where
  filename : String
  testContent : String
  action : TPAction
  oldFilename : String
deriving DecidableEq, Repr

/-- The per-file React/UI heuristic inside `finalizeTestProposals`
(test-proposals.ts lines 128-136): a falsy (absent or empty) content makes
the file count as non-React regardless of its name. -/
def isReactFile (file : ChangedFile) : Bool :=
  match file.content with
  | none => false
  | some c =>
    c != "" &&
      (strEnds file.filename ".tsx" || strHas c "import React" ||
        strHas c "from \"react\"" || strHas file.filename "app/")

/-- The per-proposal body of `finalizeTestProposals` (test-proposals.ts lines
127-147): extension normalization toward the detected code kind, then the
`__tests__/unit` directory prefix. -/
def finalizeProposal (context : PullRequestContextWithTests)
    (proposal : TestProposal) : TestProposal :=
  let isReact := context.changedFiles.any isReactFile
  let n1 :=
    if isReact && !strEnds proposal.filename ".test.tsx" then
      replaceSuffix proposal.filename ".test.ts" ".test.tsx"
    else if !isReact && !strEnds proposal.filename ".test.ts" then
      replaceSuffix proposal.filename ".test.tsx" ".test.ts"
    else proposal.filename
  let n2 := if !strHas n1 "__tests__/unit" then "__tests__/unit/" ++ n1 else n1
  { proposal with filename := n2 }

/-- `finalizeTestProposals` of test-proposals.ts. -/
def finalizeTestProposals (rawProposals : List TestProposal)
    (context : PullRequestContextWithTests) : List TestProposal :=
  rawProposals.map (finalizeProposal context)

/-- `generateTestsForChanges` of test-proposals.ts with the `generateObject`
call made explicit: on a schema-validated response the proposals are
finalized, on any thrown failure the catch returns the empty list. -/
def generateTestsForChanges (modelResult : Except String (List TestProposal))
    (context : PullRequestContextWithTests) : List TestProposal :=
  match modelResult with
  | Except.ok ps => finalizeTestProposals ps context
  | Except.error _ => []

/-! ## XML proposal parsing (github.ts, parseTestXml) -/

/-- A text node as produced by xml2js for `testContent`: either a plain
string or an attributed node whose text sits under the underscore key
(the CDATA case handled by the source). -/
inductive XmlText where
  | plain (s : String)
  | tagged (s : String)
deriving DecidableEq, Repr

/-- The parsed `actions` node: xml2js represents child elements as string
arrays. -/
structure XmlActionNode where
  action : List String
  oldFilename : List String
deriving DecidableEq, Repr

/-- One parsed `proposal` element. -/
structure XmlProposalNode where
  filename : List String
  testContent : List XmlText
  actions : List XmlActionNode
deriving DecidableEq, Repr

/-- A proposal as produced by `parseTestXml` in github.ts (there
`oldFilename` is optional). -/
structure ParsedProposal where
  filename : String
  testContent : String
  action : TPAction
  oldFilename : Option String
deriving DecidableEq, Repr

/-- The per-item loop of `parseTestXml` (github.ts lines 105-126), starting
from the xml2js output: missing fields default to the empty string, the
action tag is accepted only when it is one of create/update/rename
(anything else, including the empty string, keeps the default create), and
an item with empty filename or empty content is skipped. -/
def parseTestXml : List XmlProposalNode → List ParsedProposal
  | [] => []
  | item :: rest =>
    let filename := (item.filename.head?).getD ""
    let testContent :=
      match item.testContent.head? with
      | some (XmlText.plain s) => s
      | some (XmlText.tagged s) => s
      | none => ""
    let action :=
      match item.actions.head? with
      | some an =>
        match an.action.head? with
        | some raw =>
          if raw == "update" then TPAction.update
          else if raw == "rename" then TPAction.rename
          else TPAction.create
        | none => TPAction.create
      | none => TPAction.create
    let oldFilename :=
      match item.actions.head? with
      | some an =>
        match an.oldFilename.head? with
        | some s => if s != "" then some s else none
        | none => none
      | none => none
    if filename == "" || testContent == "" then parseTestXml rest
    else
      { filename := filename, testContent := testContent,
        action := action, oldFilename := oldFilename } :: parseTestXml rest

/-! ## Commit applier (test-proposals.ts, commitTests) -/

/-- The PR branch content store: a path is mapped to its current file
content when present.  The revision marker (sha) that the GitHub API
attaches to an existing file is implied by presence. -/
abbrev Store := (String → Option String)

/-- Pointwise store update (create, update, or delete at one path). -/
def updStore (s : Store) (path : String) (v : Option String) : Store :=
  fun q => if q = path then v else s q

/-- The per-proposal body of `commitTests` (test-proposals.ts lines 157-218).
For a rename with a truthy old filename different from the target, the old
path is probed and deleted when present (a 404 on the probe is swallowed).
Then the target path is probed: when present it is updated with its sha,
when absent (404) it is created fresh; either way it ends up holding the
proposal content. -/
def commitOneProposal (s : Store) (p : TestProposal) : Store :=
  let afterDelete :=
    if p.action == TPAction.rename && p.oldFilename != "" &&
        p.oldFilename != p.filename then
      match s p.oldFilename with
      | some _ => updStore s p.oldFilename none
      | none => s
    else s
  match afterDelete p.filename with
  | some _ => updStore afterDelete p.filename (some p.testContent)
  | none => updStore afterDelete p.filename (some p.testContent)

/-- `commitTests` of test-proposals.ts: proposals applied in order. -/
def commitTests (s : Store) (proposals : List TestProposal) : Store :=
  proposals.foldl commitOneProposal s

/-! ## Flow controller retry loop (flow-runner.ts, runFlow lines 76-103) -/

/-- The value returned by `runLocalTests` in test-runner.ts. -/
structure TestRunResult where
  jestFailed : Bool
  output : String
deriving DecidableEq, Repr

/-- The observable outcome of the test phase of `runFlow`: how many fix
iterations ran (each one `handleTestFix`, i.e. a proposal-generator call,
followed by a re-run), how many `runLocalTests` calls happened in total,
the process exit code, and the final accumulated comment body. -/
structure FlowPhaseResult where
  fixCalls : Nat
  testRuns : Nat
  exitCode : Nat
  body : String
deriving DecidableEq, Repr

/-- The `maxIterations` constant of flow-runner.ts. -/
def maxIterations : Nat := 3

/-- The comment chunk appended at the start of fix iteration `i`. -/
def fixAttemptMsg (i : Nat) : String :=
  "\n\n**Test Fix #" ++ toString i ++ "**\nTests are failing. Attempting a fix..."

/-- The terminal comment chunk of the success branch. -/
def successMsg : String := "\n\n✅ All tests passing after AI generation/fixes!"

/-- The terminal comment chunk of the exhausted branch. -/
def exhaustedMsg : String :=
  "\n\n❌ Tests failing after " ++ toString maxIterations ++ " fix attempts."

/-- The while loop of `runFlow` (flow-runner.ts lines 80-93).  `results k`
is the outcome of the k-th `runLocalTests` call (the stubbed test
executor); the state carries the iteration counter, the latest test result,
the running counts of fix and test-run calls, and the comment body. -/
def flowLoop (results : Nat → TestRunResult) (iteration : Nat)
    (t : TestRunResult) (fixCalls testRuns : Nat) (body : String) :
    Nat × Nat × TestRunResult × String :=
  if h : t.jestFailed && decide (iteration < maxIterations) then
    let next := iteration + 1
    flowLoop results next (results next) (fixCalls + 1) (testRuns + 1)
      (body ++ fixAttemptMsg next)
  else (fixCalls, testRuns, t, body)
termination_by maxIterations - iteration
decreasing_by
  simp only [Bool.and_eq_true, decide_eq_true_eq] at h
  omega

/-- The test phase of `runFlow` (flow-runner.ts lines 76-103): one initial
`runLocalTests` call, the fix-retry while loop, then the terminal comment
update and `process.exit`. -/
def runFlowTestPhase (results : Nat → TestRunResult) (body0 : String) :
    FlowPhaseResult :=
  let r := flowLoop results 0 (results 0) 0 1 body0
  match r with
  | (fixCalls, testRuns, tFinal, body) =>
    if !tFinal.jestFailed then
      { fixCalls := fixCalls, testRuns := testRuns, exitCode := 0,
        body := body ++ successMsg }
    else
      { fixCalls := fixCalls, testRuns := testRuns, exitCode := 1,
        body := body ++ exhaustedMsg }

/-! ## Helper lemmas about finalizeProposal -/

theorem strEnds_unit_step (n pat : String) (h : strEnds n pat = true) :
    strEnds (if !strHas n "__tests__/unit" then "__tests__/unit/" ++ n else n)
      pat = true := by
  cases hc : strHas n "__tests__/unit" <;> simp only [hc, Bool.not_true,
    Bool.not_false, if_true, if_false]
  · exact strEnds_prepend _ _ _ h
  · exact h

theorem strHas_unit_step (n : String) :
    strHas (if !strHas n "__tests__/unit" then "__tests__/unit/" ++ n else n)
      "__tests__/unit" = true := by
  cases hc : strHas n "__tests__/unit" <;> simp only [hc, Bool.not_true,
    Bool.not_false, if_true, if_false]
  · exact strHas_unit_prefixed n
  · exact hc

theorem finalizeProposal_react_norm (ctx : PullRequestContextWithTests)
    (p : TestProposal) (hr : ctx.changedFiles.any isReactFile = true)
    (hend : strEnds p.filename ".test.ts" = true ∨
      strEnds p.filename ".test.tsx" = true) :
    strEnds (finalizeProposal ctx p).filename ".test.tsx" = true := by
  unfold finalizeProposal
  simp only [hr, Bool.true_and, Bool.not_and, Bool.not_eq_true]
  cases h2 : strEnds p.filename ".test.tsx" with
  | true =>
    simp only [Bool.not_true, Bool.false_and, Bool.and_false, if_false,
      Bool.not_false]
    exact strEnds_unit_step _ _ h2
  | false =>
    have h1 : strEnds p.filename ".test.ts" = true := by
      rcases hend with h | h
      · exact h
      · rw [h] at h2; cases h2
    simp only [Bool.not_false, if_true]
    exact strEnds_unit_step _ _ (replaceSuffix_ends _ _ _ h1)

theorem finalizeProposal_plain_norm (ctx : PullRequestContextWithTests)
    (p : TestProposal) (hr : ctx.changedFiles.any isReactFile = false)
    (hend : strEnds p.filename ".test.ts" = true ∨
      strEnds p.filename ".test.tsx" = true) :
    strEnds (finalizeProposal ctx p).filename ".test.ts" = true := by
  unfold finalizeProposal
  simp only [hr, Bool.false_and, if_false, Bool.not_false, Bool.true_and]
  cases h2 : strEnds p.filename ".test.ts" with
  | true =>
    simp only [Bool.not_true, if_false]
    exact strEnds_unit_step _ _ h2
  | false =>
    have h1 : strEnds p.filename ".test.tsx" = true := by
      rcases hend with h | h
      · rw [h] at h2; cases h2
      · exact h
    simp only [Bool.not_false, if_true]
    exact strEnds_unit_step _ _ (replaceSuffix_ends _ _ _ h1)

/-! ## Claims -/

/-- Claim C3 (amended): on any failure of the gating model call, the gating
step returns shouldGenerate = false with reason "Gating error" (with a
capital G, not the lowercase "gating error" the claim states) and an empty
recommendation; in particular it never returns shouldGenerate = true on a
failure. -/
theorem gatingStepLogic_fail_closed (e : String) :
    gatingStepLogic (Except.error e) =
      { shouldGenerate := false, reason := "Gating error",
        recommendation := "" } := rfl

/-- Counterexample to claim C3 as stated: on a failed model call the reason
string is "Gating error", not "gating error"; the fail-closed boolean part
does hold. -/
theorem gatingStepLogic_reason_capitalized :
    (gatingStepLogic (Except.error "network error")).reason ≠ "gating error" ∧
    (gatingStepLogic (Except.error "network error")).shouldGenerate = false := by
  decide

/-- Claim C8: every proposal returned by the finalization step has a
filename containing the substring "__tests__/unit"; a filename that does
not already contain it gets the "__tests__/unit/" prefix. -/
theorem finalizeProposal_unit_dir (ctx : PullRequestContextWithTests)
    (p : TestProposal) :
    strHas (finalizeProposal ctx p).filename "__tests__/unit" = true :=
  strHas_unit_step _

/-! ## Fixtures for witnesses and counterexamples -/

/-- A changed React page file with fetched content. -/
def reactFile : ChangedFile :=
  { filename := "app/page.tsx", patch := "@@ -0 +1 @@",
    status := "modified", additions := 3, deletions := 1,
    content := some "import React from react", excluded := false }

/-- A context whose changed files include React/UI code. -/
def reactCtx : PullRequestContextWithTests :=
  { owner := "acme", repo := "web", pullNumber := 7, headRef := "feature",
    baseRef := "main", title := "add page",
    changedFiles := [reactFile],
    commitMessages := ["add page"], existingTestFiles := [] }

/-- A context with no changed files at all (non-React batch). -/
def plainCtx : PullRequestContextWithTests :=
  { owner := "acme", repo := "web", pullNumber := 8, headRef := "feature",
    baseRef := "main", title := "util", changedFiles := [],
    commitMessages := [], existingTestFiles := [] }

/-- A proposal whose name already carries the plain test extension. -/
def propTs : TestProposal :=
  { filename := "example.test.ts", testContent := "test body",
    action := TPAction.create, oldFilename := "" }

/-- A proposal whose name already carries the UI test extension. -/
def propTsx : TestProposal :=
  { filename := "example.test.tsx", testContent := "test body",
    action := TPAction.create, oldFilename := "" }

/-- Claim C6 (amended): extension normalization is guaranteed only for
proposals whose filename already ends in ".test.ts" or ".test.tsx"; for
those, a React-detected batch yields ".test.tsx" and a non-React batch
yields ".test.ts".  Filenames with any other ending are left with their
original extension. -/
theorem finalizeProposal_extension_aligned :
    (∀ (ctx : PullRequestContextWithTests) (p : TestProposal),
      ctx.changedFiles.any isReactFile = true →
      (strEnds p.filename ".test.ts" = true ∨
        strEnds p.filename ".test.tsx" = true) →
      strEnds (finalizeProposal ctx p).filename ".test.tsx" = true) ∧
    (∀ (ctx : PullRequestContextWithTests) (p : TestProposal),
      ctx.changedFiles.any isReactFile = false →
      (strEnds p.filename ".test.ts" = true ∨
        strEnds p.filename ".test.tsx" = true) →
      strEnds (finalizeProposal ctx p).filename ".test.ts" = true) :=
  ⟨finalizeProposal_react_norm, finalizeProposal_plain_norm⟩

/-- Witness for claim C6: the amended normalization evaluated on concrete
React and non-React batches. -/
theorem finalizeProposal_extension_aligned_witness :
    reactCtx.changedFiles.any isReactFile = true ∧
    strEnds propTs.filename ".test.ts" = true ∧
    strEnds (finalizeProposal reactCtx propTs).filename ".test.tsx" = true ∧
    plainCtx.changedFiles.any isReactFile = false ∧
    strEnds (finalizeProposal plainCtx propTsx).filename ".test.ts" = true :=
  ⟨by decide, by decide,
    finalizeProposal_extension_aligned.1 reactCtx propTs (by decide)
      (Or.inl (by decide)),
    by decide,
    finalizeProposal_extension_aligned.2 plainCtx propTsx (by decide)
      (Or.inr (by decide))⟩

/-- A proposal whose name carries neither test extension. -/
def propHelper : TestProposal :=
  { filename := "helper.ts", testContent := "x",
    action := TPAction.create, oldFilename := "" }

/-- Counterexample to claim C6 as stated: in a React-detected batch a
proposal named "helper.ts" is returned as "__tests__/unit/helper.ts", which
does not end in ".test.tsx" — the regex replacement only rewrites a
".test.ts" suffix, so arbitrary filenames are not normalized. -/
theorem finalizeProposal_react_nonTest_name_kept :
    reactCtx.changedFiles.any isReactFile = true ∧
    (finalizeProposal reactCtx propHelper).filename =
      "__tests__/unit/helper.ts" ∧
    strEnds "__tests__/unit/helper.ts" ".test.tsx" = false := by
  decide

theorem isReactFile_none (f : ChangedFile) (hf : f.content = none) :
    isReactFile f = false := by
  unfold isReactFile
  rw [hf]

theorem any_isReactFile_eq_false (ctx : PullRequestContextWithTests)
    (hall : ∀ f ∈ ctx.changedFiles, f.content = none) :
    ctx.changedFiles.any isReactFile = false := by
  simp only [List.any_eq_false]
  intro f hf
  simp [isReactFile_none f (hall f hf)]

/-- Claim C9: the UI detection looks only at files with present content —
a file whose content is absent counts as non-React whatever its name; a
batch in which every changed file has absent content is detected as
non-React, and its proposals are normalized toward ".test.ts". -/
theorem reactDetection_ignores_absent_content :
    (∀ f : ChangedFile, f.content = none → isReactFile f = false) ∧
    (∀ ctx : PullRequestContextWithTests,
      (∀ f ∈ ctx.changedFiles, f.content = none) →
      ctx.changedFiles.any isReactFile = false) ∧
    (∀ (ctx : PullRequestContextWithTests) (p : TestProposal),
      (∀ f ∈ ctx.changedFiles, f.content = none) →
      (strEnds p.filename ".test.ts" = true ∨
        strEnds p.filename ".test.tsx" = true) →
      strEnds (finalizeProposal ctx p).filename ".test.ts" = true) :=
  ⟨isReactFile_none, any_isReactFile_eq_false,
    fun ctx p hall hend =>
      finalizeProposal_plain_norm ctx p (any_isReactFile_eq_false ctx hall) hend⟩

/-- An excluded UI-looking changed file: .tsx name, under app/, but the
content was not fetched. -/
def excludedTsxFile : ChangedFile :=
  { filename := "app/widget.tsx", patch := "@@ -0 +1 @@", status := "modified",
    additions := 5, deletions := 0, content := none, excluded := true }

/-- A context whose only UI-looking changed file is excluded. -/
def excludedCtx : PullRequestContextWithTests :=
  { owner := "acme", repo := "web", pullNumber := 9, headRef := "feature",
    baseRef := "main", title := "widget",
    changedFiles := [excludedTsxFile],
    commitMessages := [], existingTestFiles := [] }

/-- Witness for claim C9: a .tsx file under app/ with absent content is
detected as non-React and the batch is normalized to ".test.ts". -/
theorem reactDetection_ignores_absent_content_witness :
    excludedTsxFile.content = none ∧
    isReactFile excludedTsxFile = false ∧
    excludedCtx.changedFiles.any isReactFile = false ∧
    strEnds (finalizeProposal excludedCtx propTsx).filename ".test.ts" = true :=
  ⟨rfl,
    reactDetection_ignores_absent_content.1 excludedTsxFile rfl,
    reactDetection_ignores_absent_content.2.1 excludedCtx (by decide),
    reactDetection_ignores_absent_content.2.2 excludedCtx propTsx (by decide)
      (Or.inr (by decide))⟩

/-- Claim C10: every entry collected by getAllTestFiles has non-empty
content — a file whose fetched content is absent or empty is omitted from
the existing-test-files list. -/
theorem getAllTestFiles_content_nonempty (entries : List FsEntry)
    (e : TestFileEntry) (he : e ∈ getAllTestFiles entries) : e.content ≠ "" := by
  induction entries using getAllTestFiles.induct with
  | case1 => simp [getAllTestFiles] at he
  | case2 p c rest ih =>
    cases c with
    | some s =>
      simp only [getAllTestFiles, List.mem_append] at he
      rcases he with h1 | h2
      · split at h1
        · next hs =>
          rcases List.mem_singleton.mp h1 with rfl
          simpa using hs
        · simp at h1
      · exact ih h2
    | none =>
      simp only [getAllTestFiles, List.nil_append] at he
      exact ih he
  | case3 p entries rest ih1 ih2 =>
    simp only [getAllTestFiles, List.mem_append] at he
    rcases he with h1 | h2
    · exact ih1 h1
    · exact ih2 h2

/-- A directory tree for the witness: a nested test directory with one
valid file, one empty file, and one unfetchable file. -/
def testTree : List FsEntry :=
  [FsEntry.dir "__tests__"
    [FsEntry.file "__tests__/a.test.ts" (some "test a"),
     FsEntry.file "__tests__/empty.test.ts" (some ""),
     FsEntry.file "__tests__/missing.test.ts" none]]

/-- Witness for claim C10: the collected entry of the concrete tree has
non-empty content (and the empty and absent files were dropped). -/
theorem getAllTestFiles_content_nonempty_witness :
    ({ filename := "__tests__/a.test.ts", content := "test a"} ∈
      getAllTestFiles testTree) ∧
    ({ filename := "__tests__/a.test.ts", content := "test a"} :
      TestFileEntry).content ≠ "" :=
  ⟨by simp [testTree, getAllTestFiles],
    getAllTestFiles_content_nonempty testTree
      { filename := "__tests__/a.test.ts", content := "test a"}
      (by simp [testTree, getAllTestFiles])⟩

/-- Claim C5 (amended): the XML-variant parser parseTestXml drops any
proposal with empty filename or empty content, so each of its returned
proposals is non-empty in both fields.  (The JSON-schema variant performs
no such filter — see the counterexample.) -/
theorem parseTestXml_nonempty (items : List XmlProposalNode)
    (p : ParsedProposal) (hp : p ∈ parseTestXml items) :
    p.filename ≠ "" ∧ p.testContent ≠ "" := by
  induction items with
  | nil => simp [parseTestXml] at hp
  | cons item rest ih =>
    simp only [parseTestXml] at hp
    split at hp
    · exact ih hp
    · next hcond =>
      rcases List.mem_cons.mp hp with rfl | hmem
      · rw [Bool.not_eq_true, Bool.or_eq_false_iff, beq_eq_false_iff_ne,
          beq_eq_false_iff_ne] at hcond
        exact hcond
      · exact ih hmem

/-- A concrete xml2js item with both fields present and non-empty. -/
def xmlItemGood : XmlProposalNode :=
  { filename := ["__tests__/unit/sum.test.ts"],
    testContent := [XmlText.tagged "describe sum"],
    actions := [{ action := ["create"], oldFilename := [] }] }

/-- A concrete xml2js item with empty content, to be dropped. -/
def xmlItemEmpty : XmlProposalNode :=
  { filename := ["__tests__/unit/bad.test.ts"],
    testContent := [], actions := [] }

/-- Witness for claim C5: on a concrete parse result the surviving proposal
has non-empty filename and content. -/
theorem parseTestXml_nonempty_witness :
    ({ filename := "__tests__/unit/sum.test.ts",
       testContent := "describe sum", action := TPAction.create,
       oldFilename := none } ∈ parseTestXml [xmlItemGood, xmlItemEmpty]) ∧
    ("__tests__/unit/sum.test.ts" ≠ "" ∧ "describe sum" ≠ "") :=
  ⟨by decide,
    parseTestXml_nonempty [xmlItemGood, xmlItemEmpty]
      { filename := "__tests__/unit/sum.test.ts",
        testContent := "describe sum", action := TPAction.create,
        oldFilename := none } (by decide)⟩

/-- A schema-valid JSON proposal whose testContent is the empty string. -/
def emptyContentProposal : TestProposal :=
  { filename := "sum.test.ts", testContent := "",
    action := TPAction.create, oldFilename := "" }

/-- Counterexample to claim C5 as stated: the JSON-schema proposal
generator (test-proposals.ts) does not discard a proposal whose test
content is empty — the zod schema accepts the empty string and
finalizeTestProposals only rewrites the filename, so the returned list
contains a proposal with empty content. -/
theorem generateTests_keeps_empty_content :
    generateTestsForChanges (Except.ok [emptyContentProposal]) plainCtx =
      [{ filename := "__tests__/unit/sum.test.ts", testContent := "",
         action := TPAction.create, oldFilename := "" }] ∧
    (generateTestsForChanges (Except.ok [emptyContentProposal])
        plainCtx).any (fun q => q.testContent == "") = true := by
  decide

theorem buildChangedFile_ok_spec
    (fetchContent : String → Except String (Option String))
    (file : RawChangedFile) (cf : ChangedFile)
    (h : buildChangedFile fetchContent file = Except.ok cf) :
    (cf.status = "removed" → cf.excluded = true ∧ cf.content = none) ∧
    (shouldExcludeFile cf.filename = true → cf.excluded = true ∧ cf.content = none) ∧
    (∀ s, fetchContent cf.filename = Except.ok (some s) → 32000 < s.length →
      cf.excluded = true ∧ cf.content = none) ∧
    (cf.excluded = false ↔ cf.content ≠ none) := by
  unfold buildChangedFile at h
  split at h
  · next hcond =>
    rw [Bool.and_eq_true, bne_iff_ne, Bool.not_eq_true'] at hcond
    split at h
    · next e heq => cases h
    · next c heq =>
      split at h
      · next hsize =>
        rw [Bool.and_eq_true, decide_eq_true_eq] at hsize
        injection h with h2
        subst h2
        refine ⟨fun hs => absurd hs hcond.1, fun hs => ?_, fun s hf hl => ?_, by simp⟩
        · rw [hcond.2] at hs
          cases hs
        · rw [hf] at heq
          injection heq with heq2
          injection heq2 with heq3
          subst heq3
          omega
      · next hsize =>
        injection h with h2
        subst h2
        exact ⟨fun _ => ⟨rfl, rfl⟩, fun _ => ⟨rfl, rfl⟩, fun s hf hl => ⟨rfl, rfl⟩,
          by simp⟩
    · next heq =>
      injection h with h2
      subst h2
      exact ⟨fun _ => ⟨rfl, rfl⟩, fun _ => ⟨rfl, rfl⟩, fun s hf hl => ⟨rfl, rfl⟩,
        by simp⟩
  · next hcond =>
    injection h with h2
    subst h2
    exact ⟨fun _ => ⟨rfl, rfl⟩, fun _ => ⟨rfl, rfl⟩, fun s hf hl => ⟨rfl, rfl⟩,
      by simp⟩

/-- Claim C4: in every successfully built changed-file list, an entry whose
status is removed, whose filename hits the lockfile denylist, or whose
fetched content exceeds 32000 characters is excluded with absent content;
and in every entry, content is present exactly when the entry is not
excluded. -/
theorem buildPRContextFiles_exclusion_invariant
    (fetchContent : String → Except String (Option String))
    (files : List RawChangedFile) (out : List ChangedFile)
    (h : buildPRContextFiles fetchContent files = Except.ok out) :
    ∀ cf ∈ out,
      (cf.status = "removed" → cf.excluded = true ∧ cf.content = none) ∧
      (shouldExcludeFile cf.filename = true →
        cf.excluded = true ∧ cf.content = none) ∧
      (∀ s, fetchContent cf.filename = Except.ok (some s) → 32000 < s.length →
        cf.excluded = true ∧ cf.content = none) ∧
      (cf.excluded = false ↔ cf.content ≠ none) := by
  induction files generalizing out with
  | nil =>
    unfold buildPRContextFiles at h
    injection h with h2
    subst h2
    intro cf hcf
    cases hcf
  | cons f fs ih =>
    unfold buildPRContextFiles at h
    split at h
    · cases h
    · next cf0 heq0 =>
      split at h
      · cases h
      · next rest heqr =>
        injection h with h2
        subst h2
        intro cf hcf
        rcases List.mem_cons.mp hcf with rfl | hmem
        · exact buildChangedFile_ok_spec fetchContent f cf heq0
        · exact ih rest heqr cf hmem

/-- A stub content store holding one small source file. -/
def c4Fetch : String → Except String (Option String) :=
  fun path => if path = "src/sum.ts" then Except.ok (some "export const x = 1")
    else Except.ok none

/-- The raw listing entry for the witness. -/
def c4Raw : RawChangedFile :=
  { filename := "src/sum.ts", patch := some "@@ -0 +1 @@",
    status := "modified", additions := 1, deletions := 0 }

/-- The built entry the witness expects. -/
def c4Built : ChangedFile :=
  { filename := "src/sum.ts", patch := "@@ -0 +1 @@", status := "modified",
    additions := 1, deletions := 0, content := some "export const x = 1",
    excluded := false }

/-- Witness for claim C4: the invariant evaluated on a concrete build. -/
theorem buildPRContextFiles_exclusion_invariant_witness :
    buildPRContextFiles c4Fetch [c4Raw] = Except.ok [c4Built] ∧
    ((c4Built.status = "removed" → c4Built.excluded = true ∧ c4Built.content = none) ∧
     (shouldExcludeFile c4Built.filename = true →
       c4Built.excluded = true ∧ c4Built.content = none) ∧
     (∀ s, c4Fetch c4Built.filename = Except.ok (some s) → 32000 < s.length →
       c4Built.excluded = true ∧ c4Built.content = none) ∧
     (c4Built.excluded = false ↔ c4Built.content ≠ none)) :=
  ⟨rfl,
    buildPRContextFiles_exclusion_invariant c4Fetch [c4Raw] [c4Built]
      rfl c4Built (by decide)⟩

theorem updStore_same (s : Store) (path : String) (v : Option String) :
    updStore s path v path = v := by
  unfold updStore
  simp

theorem updStore_other (s : Store) (path q : String) (v : Option String)
    (h : q ≠ path) : updStore s path v q = s q := by
  unfold updStore
  simp [h]

/-- Claim C7: applying a rename proposal leaves the target path holding the
proposal content, and (when the old name differs from the target) the old
path absent — whether or not the old path existed before: an existing old
file is deleted first, a missing one is tolerated and skipped. -/
theorem commitOneProposal_rename_spec (s : Store) (p : TestProposal)
    (ha : p.action = TPAction.rename) (hne : p.oldFilename ≠ "") :
    commitOneProposal s p p.filename = some p.testContent ∧
    (p.oldFilename ≠ p.filename →
      commitOneProposal s p p.oldFilename = none) := by
  have hw : ∀ (s1 : Store) (q : String),
      (match s1 p.filename with
       | some _ => updStore s1 p.filename (some p.testContent)
       | none => updStore s1 p.filename (some p.testContent)) q =
      updStore s1 p.filename (some p.testContent) q := by
    intro s1 q
    cases s1 p.filename <;> rfl
  simp only [commitOneProposal]
  constructor
  · rw [hw]
    exact updStore_same _ _ _
  · intro hneq
    rw [hw, updStore_other _ _ _ _ hneq]
    have hcond : (p.action == TPAction.rename && p.oldFilename != "" &&
        p.oldFilename != p.filename) = true := by
      simp [ha, bne_iff_ne, hne, hneq]
    rw [if_pos hcond]
    cases hs : s p.oldFilename with
    | some c =>
      simp only [hs]
      exact updStore_same _ _ _
    | none =>
      simp only [hs]

/-- The store for the C7 witness: only the old test file exists. -/
def c7Store : Store :=
  fun q => if q = "__tests__/unit/old.test.ts" then some "old body" else none

/-- The rename proposal for the C7 witness. -/
def c7Rename : TestProposal :=
  { filename := "__tests__/unit/new.test.ts", testContent := "new body",
    action := TPAction.rename, oldFilename := "__tests__/unit/old.test.ts" }

/-- Witness for claim C7: a concrete rename moves the content to the new
path and removes the old one. -/
theorem commitOneProposal_rename_spec_witness :
    c7Rename.action = TPAction.rename ∧ c7Rename.oldFilename ≠ "" ∧
    (commitOneProposal c7Store c7Rename c7Rename.filename =
       some c7Rename.testContent ∧
     (c7Rename.oldFilename ≠ c7Rename.filename →
       commitOneProposal c7Store c7Rename c7Rename.oldFilename = none)) :=
  ⟨rfl, by decide, commitOneProposal_rename_spec c7Store c7Rename rfl (by decide)⟩

/-- Claim C1: when every test run fails, the controller performs exactly
maxIterations = 3 fix iterations after the first run (so 3 proposal-fix
calls and 4 test runs in total), appends the exhausted-retries report and
exits with status 1. -/
theorem runFlow_allFail_exhausted (results : Nat → TestRunResult)
    (body0 : String) (h : ∀ k, (results k).jestFailed = true) :
    runFlowTestPhase results body0 =
      { fixCalls := 3, testRuns := 4, exitCode := 1,
        body := body0 ++ fixAttemptMsg 1 ++ fixAttemptMsg 2 ++
          fixAttemptMsg 3 ++ exhaustedMsg } := by
  have hmax : maxIterations = 3 := rfl
  simp [runFlowTestPhase, flowLoop, h, hmax]

/-- Witness for claim C1: the always-failing stub executor. -/
theorem runFlow_allFail_exhausted_witness :
    runFlowTestPhase (fun _ => { jestFailed := true, output := "boom" }) "Init" =
      { fixCalls := 3, testRuns := 4, exitCode := 1,
        body := "Init" ++ fixAttemptMsg 1 ++ fixAttemptMsg 2 ++
          fixAttemptMsg 3 ++ exhaustedMsg } :=
  runFlow_allFail_exhausted (fun _ => { jestFailed := true, output := "boom" })
    "Init" (fun _ => rfl)

/-- Claim C2: when the first run fails and the second passes, the
controller performs exactly one fix iteration (two test runs in total),
appends the success report and exits with status 0. -/
theorem runFlow_failThenPass_oneFix (results : Nat → TestRunResult)
    (body0 : String) (h0 : (results 0).jestFailed = true)
    (h1 : (results 1).jestFailed = false) :
    runFlowTestPhase results body0 =
      { fixCalls := 1, testRuns := 2, exitCode := 0,
        body := body0 ++ fixAttemptMsg 1 ++ successMsg } := by
  have hmax : maxIterations = 3 := rfl
  simp [runFlowTestPhase, flowLoop, h0, h1, hmax]

/-- The fail-once stub executor for the C2 witness. -/
def failOnceResults : Nat → TestRunResult :=
  fun k => if k = 0 then { jestFailed := true, output := "assertion failed" }
    else { jestFailed := false, output := "all green" }

/-- Witness for claim C2: the fail-once stub executor. -/
theorem runFlow_failThenPass_oneFix_witness :
    (failOnceResults 0).jestFailed = true ∧
    (failOnceResults 1).jestFailed = false ∧
    runFlowTestPhase failOnceResults "Init" =
      { fixCalls := 1, testRuns := 2, exitCode := 0,
        body := "Init" ++ fixAttemptMsg 1 ++ successMsg } :=
  ⟨rfl, rfl, runFlow_failThenPass_oneFix failOnceResults "Init" rfl rfl⟩
